import Mathlib

/-!
Shallow embedding of the hand-landmark stabilization and ring-pose pipeline
of the jewelry try-on repository, together with proofs settling the frozen
claims about it.

Sources embedded:
* `src/utils/stabilization.ts` (current generation, below the separator):
  `OneEuroFilter`, `StabilizationFilter`, `LandmarkStabilizer`, `EmaValue`.
* `src/components/mediapipe/HandTracker.tsx`: the palm/back hysteresis of
  `detectHandOrientation` and the no-landmark reset branch.
* the ring placement component (`Ring.tsx`, `useFrame` body): the shared
  `computeAlpha` helper, the screen-space and world-speed motion
  attenuation, the jitter dead-zone easing stage, the view-axis angle
  update (JavaScript `%` semantics included), and the no-hand else branch.

All numbers are modelled as real numbers; JavaScript `Math.sqrt`,
`Math.exp`, `Math.pow`, `Math.atan2` become `Real.sqrt`, `Real.exp`,
`Real.rpow` and a case-split `atan2` over `Real.arctan`.  Stateful classes
become structures with explicit state passing: `update` returns the pair
(returned value, new state).  A thrown exception becomes an
`Except.error` result paired with the unchanged state.
-/

noncomputable section

/-- 3-component vector, mirroring the `Vec3`/`Landmark` record `{x,y,z}`. -/
structure Vec3 where
  x : ℝ
  y : ℝ
  z : ℝ

/-- Helper `lerp(a, b, t) = a + (b - a) * t` from stabilization.ts (and
`THREE.MathUtils.lerp`, which is the same formula). -/
def lerp (a b t : ℝ) : ℝ := a + (b - a) * t

/-- Helper `clamp(value, min, max) = Math.max(min, Math.min(max, value))`
from stabilization.ts (and `THREE.MathUtils.clamp`, same formula). -/
def clamp (value lo hi : ℝ) : ℝ := max lo (min hi value)

/-- `const EPSILON = 1e-9` from stabilization.ts. -/
def EPSILON : ℝ := 1e-9

/-- Euclidean magnitude of a `Vec3`, written exactly as the source writes
`Math.sqrt(v.x*v.x + v.y*v.y + v.z*v.z)`. -/
def mag3 (v : Vec3) : ℝ := Real.sqrt (v.x * v.x + v.y * v.y + v.z * v.z)

/-- Componentwise difference, as the source computes `rawDelta`. -/
def sub3 (a b : Vec3) : Vec3 := ⟨a.x - b.x, a.y - b.y, a.z - b.z⟩

/-- State of `OneEuroFilter` (current generation): `x` is `null` before the
first sample; the three tuning parameters are instance fields. -/
structure OneEuroFilter where
  x : Option ℝ
  dx : ℝ
  lastTime : ℝ
  minCutoff : ℝ
  beta : ℝ
  dCutoff : ℝ

namespace OneEuroFilter

/-- The constructor `new OneEuroFilter(minCutoff, beta, dCutoff)`. -/
def init (minCutoff beta dCutoff : ℝ) : OneEuroFilter :=
  { x := none, dx := 0, lastTime := 0, minCutoff := minCutoff, beta := beta,
    dCutoff := dCutoff }

/-- `reset()`: clears `x`, `dx`, `lastTime`; parameters are kept. -/
def reset (f : OneEuroFilter) : OneEuroFilter :=
  { f with x := none, dx := 0, lastTime := 0 }

/-- Private method `alpha(dt, cutoff)`:
`tau = 1/(2*Math.PI*cutoff); return 1/(1 + tau/dt)`. -/
def alphaOf (dt cutoff : ℝ) : ℝ :=
  let tau := 1 / (2 * Real.pi * cutoff)
  1 / (1 + tau / dt)

/-- Private method `exponentialSmoothing(value, prev, alpha)`. -/
def exponentialSmoothing (value prev alpha : ℝ) : ℝ :=
  alpha * value + (1 - alpha) * prev

/-- `update(value, timestamp)`: first call seeds and returns the value;
`dt <= 0` returns the stored value unchanged; otherwise the derivative
estimate is low-pass filtered, the cutoff adapts to its magnitude and the
output is an exponential smoothing of `value` toward the stored value. -/
def update (f : OneEuroFilter) (value timestamp : ℝ) : ℝ × OneEuroFilter :=
  match f.x with
  | none => (value, { f with x := some value, lastTime := timestamp })
  | some x0 =>
    let dt := timestamp - f.lastTime
    if dt ≤ 0 then (x0, f)
    else
      let edx := (value - x0) / dt
      let edxFiltered := exponentialSmoothing edx f.dx (alphaOf dt f.dCutoff)
      let cutoff := f.minCutoff + f.beta * |edxFiltered|
      let a := alphaOf dt cutoff
      let xFiltered := exponentialSmoothing value x0 a
      (xFiltered,
        { f with x := some xFiltered, dx := edxFiltered, lastTime := timestamp })

end OneEuroFilter

/-- State of `StabilizationFilter` (current generation): previous output,
smoothed velocity, acceleration estimate, rolling velocity history, three
per-axis one-euro filters, bookkeeping and tuning parameters. -/
structure StabilizationFilter where
  prev : Option Vec3
  velocity : Vec3
  acceleration : Vec3
  velocityHistory : List Vec3
  oneEuroX : OneEuroFilter
  oneEuroY : OneEuroFilter
  oneEuroZ : OneEuroFilter
  lastTimestamp : ℝ
  stableFrames : ℕ
  deadZone : ℝ
  velocitySmoothing : ℝ
  jitterThreshold : ℝ
  predictionStrength : ℝ

namespace StabilizationFilter

/-- `VELOCITY_HISTORY_SIZE = 5`. -/
def VELOCITY_HISTORY_SIZE : ℕ := 5

/-- The constructor `new StabilizationFilter(deadZone, velocitySmoothing,
jitterThreshold, predictionStrength, oneEuroMinCutoff, oneEuroBeta,
oneEuroDCutoff)`. -/
def init (deadZone velocitySmoothing jitterThreshold predictionStrength
    oneEuroMinCutoff oneEuroBeta oneEuroDCutoff : ℝ) : StabilizationFilter :=
  { prev := none, velocity := ⟨0, 0, 0⟩, acceleration := ⟨0, 0, 0⟩,
    velocityHistory := [],
    oneEuroX := OneEuroFilter.init oneEuroMinCutoff oneEuroBeta oneEuroDCutoff,
    oneEuroY := OneEuroFilter.init oneEuroMinCutoff oneEuroBeta oneEuroDCutoff,
    oneEuroZ := OneEuroFilter.init oneEuroMinCutoff oneEuroBeta oneEuroDCutoff,
    lastTimestamp := 0, stableFrames := 0, deadZone := deadZone,
    velocitySmoothing := velocitySmoothing, jitterThreshold := jitterThreshold,
    predictionStrength := predictionStrength }

/-- `reset()`: clears every running field and resets the three one-euro
filters; tuning parameters are kept. -/
def reset (s : StabilizationFilter) : StabilizationFilter :=
  { s with
    prev := none
    velocity := ⟨0, 0, 0⟩
    acceleration := ⟨0, 0, 0⟩
    velocityHistory := []
    oneEuroX := s.oneEuroX.reset
    oneEuroY := s.oneEuroY.reset
    oneEuroZ := s.oneEuroZ.reset
    lastTimestamp := 0
    stableFrames := 0 }

/-- Applies the three per-axis one-euro filters to a point, as the source
does in every branch that returns a filtered result. -/
def euroStep (s : StabilizationFilter) (p : Vec3) (timestamp : ℝ) :
    Vec3 × OneEuroFilter × OneEuroFilter × OneEuroFilter :=
  let rx := s.oneEuroX.update p.x timestamp
  let ry := s.oneEuroY.update p.y timestamp
  let rz := s.oneEuroZ.update p.z timestamp
  (⟨rx.1, ry.1, rz.1⟩, rx.2, ry.2, rz.2)

/-- `update(point, timestamp)` of the current-generation
`StabilizationFilter`, transcribed branch for branch:
first call seeds; `dt <= EPSILON` returns the stored previous output;
a movement below `deadZone` still passes the raw point through the
one-euro filters (without touching `prev` or velocity state);
otherwise velocity history (last 5 entries), average velocity,
acceleration and smoothed velocity are updated, then either the one-euro
filtered raw point (movement below `jitterThreshold`, or prediction
disabled/velocity floor not met) or the one-euro filtered, clamped
second-order extrapolation is returned and stored as `prev`. -/
def update (s : StabilizationFilter) (point : Vec3) (timestamp : ℝ) :
    Vec3 × StabilizationFilter :=
  match s.prev with
  | none => (point, { s with prev := some point, lastTimestamp := timestamp })
  | some prevP =>
    let dt := timestamp - s.lastTimestamp
    if dt ≤ EPSILON then (prevP, s)
    else
      let rawDelta := sub3 point prevP
      let movementMagnitude := mag3 rawDelta
      if movementMagnitude < s.deadZone then
        let e := euroStep s point timestamp
        (e.1, { s with
                stableFrames := s.stableFrames + 1
                lastTimestamp := timestamp
                oneEuroX := e.2.1
                oneEuroY := e.2.2.1
                oneEuroZ := e.2.2.2 })
      else
        let currentVelocity : Vec3 :=
          ⟨rawDelta.x / dt, rawDelta.y / dt, rawDelta.z / dt⟩
        let pushed := s.velocityHistory ++ [currentVelocity]
        let history :=
          if VELOCITY_HISTORY_SIZE < pushed.length then pushed.drop 1 else pushed
        let sumV := history.foldl
          (fun acc v => Vec3.mk (acc.x + v.x) (acc.y + v.y) (acc.z + v.z))
          ⟨0, 0, 0⟩
        let historySize : ℝ := (history.length : ℝ)
        let avgVelocity : Vec3 :=
          ⟨sumV.x / historySize, sumV.y / historySize, sumV.z / historySize⟩
        let acceleration : Vec3 :=
          ⟨(currentVelocity.x - s.velocity.x) / dt,
           (currentVelocity.y - s.velocity.y) / dt,
           (currentVelocity.z - s.velocity.z) / dt⟩
        let velocity : Vec3 :=
          ⟨lerp s.velocity.x currentVelocity.x s.velocitySmoothing,
           lerp s.velocity.y currentVelocity.y s.velocitySmoothing,
           lerp s.velocity.z currentVelocity.z s.velocitySmoothing⟩
        let velocityMagnitude := mag3 velocity
        let s1 := { s with
                    stableFrames := 0
                    velocityHistory := history
                    acceleration := acceleration
                    velocity := velocity }
        if movementMagnitude < s.jitterThreshold then
          let e := euroStep s1 point timestamp
          (e.1, { s1 with
                  prev := some e.1
                  lastTimestamp := timestamp
                  oneEuroX := e.2.1
                  oneEuroY := e.2.2.1
                  oneEuroZ := e.2.2.2 })
        else
          if 0 < s.predictionStrength ∧ 0.001 < velocityMagnitude then
            let predictionTime := dt * s.predictionStrength
            let prediction : Vec3 :=
              ⟨point.x + avgVelocity.x * predictionTime
                 + 0.5 * acceleration.x * predictionTime * predictionTime,
               point.y + avgVelocity.y * predictionTime
                 + 0.5 * acceleration.y * predictionTime * predictionTime,
               point.z + avgVelocity.z * predictionTime
                 + 0.5 * acceleration.z * predictionTime * predictionTime⟩
            let clamped : Vec3 :=
              ⟨clamp prediction.x 0 1, clamp prediction.y 0 1,
               clamp prediction.z (-1) 1⟩
            let e := euroStep s1 clamped timestamp
            (e.1, { s1 with
                    prev := some e.1
                    lastTimestamp := timestamp
                    oneEuroX := e.2.1
                    oneEuroY := e.2.2.1
                    oneEuroZ := e.2.2.2 })
          else
            let e := euroStep s1 point timestamp
            (e.1, { s1 with
                    prev := some e.1
                    lastTimestamp := timestamp
                    oneEuroX := e.2.1
                    oneEuroY := e.2.2.1
                    oneEuroZ := e.2.2.2 })

end StabilizationFilter

/-- The named presets of `LandmarkStabilizer` (current generation). -/
inductive StabilizerMode where
  | responsive
  | balanced
  | stable
  deriving DecidableEq

/-- State of `LandmarkStabilizer`: the array of 21 per-landmark filters. -/
structure LandmarkStabilizer where
  filters : List StabilizationFilter

namespace LandmarkStabilizer

/-- The preset parameter bundles of `initializeFilters` (current
generation), as a tuple (deadZone, velocitySmoothing, jitterThreshold,
predictionStrength, oneEuroMinCutoff, oneEuroBeta, oneEuroDCutoff). -/
def presetParams : StabilizerMode → ℝ × ℝ × ℝ × ℝ × ℝ × ℝ × ℝ
  | .responsive => (0.0002, 0.1, 0.001, 0.4, 4.0, 0.03, 2.0)
  | .balanced => (0.0003, 0.15, 0.0015, 0.35, 3.0, 0.02, 2.0)
  | .stable => (0.0006, 0.25, 0.002, 0.25, 2.0, 0.015, 1.5)

/-- `initializeFilters` / the constructor without custom overrides:
21 fresh `StabilizationFilter` instances built from the preset. -/
def init (mode : StabilizerMode) : LandmarkStabilizer :=
  let p := presetParams mode
  { filters := List.replicate 21
      (StabilizationFilter.init p.1 p.2.1 p.2.2.1 p.2.2.2.1 p.2.2.2.2.1
        p.2.2.2.2.2.1 p.2.2.2.2.2.2) }

/-- `reset()`: `this.filters.forEach(f => f.reset())`. -/
def reset (st : LandmarkStabilizer) : LandmarkStabilizer :=
  { filters := st.filters.map StabilizationFilter.reset }

/-- `apply(landmarks, timestamp)`: throws (`Except.error`, state returned
unchanged — the throw happens before any filter is touched) unless the
input has exactly 21 landmarks; otherwise maps each landmark through its
positional filter. -/
def apply (st : LandmarkStabilizer) (landmarks : List Vec3) (timestamp : ℝ) :
    Except String (List Vec3) × LandmarkStabilizer :=
  if landmarks.length ≠ 21 then
    (Except.error "Expected 21 landmarks", st)
  else
    let stepped := List.zipWith
      (fun lm f => StabilizationFilter.update f lm timestamp)
      landmarks st.filters
    (Except.ok (stepped.map Prod.fst), { filters := stepped.map Prod.snd })

end LandmarkStabilizer

/-- State of `EmaValue`: `value` is `null` before the first sample. -/
structure EmaValue where
  value : Option ℝ
  alpha : ℝ

namespace EmaValue

/-- The constructor `new EmaValue(alpha)`. -/
def init (alpha : ℝ) : EmaValue := { value := none, alpha := alpha }

/-- `reset()`: `this.value = null`. -/
def reset (e : EmaValue) : EmaValue := { e with value := none }

/-- `update(newValue)`: first call seeds; afterwards
`alpha * newValue + (1 - alpha) * value`. -/
def update (e : EmaValue) (newValue : ℝ) : ℝ × EmaValue :=
  match e.value with
  | none => (newValue, { e with value := some newValue })
  | some v =>
    let v2 := e.alpha * newValue + (1 - e.alpha) * v
    (v2, { e with value := some v2 })

end EmaValue

/-- Discrete hand-facing label, the strings `'palm'` / `'back'` of
`detectHandOrientation` in HandTracker.tsx. -/
inductive Facing where
  | palm
  | back
  deriving DecidableEq

/-- `PALM_THRESHOLD = 0.6` in `detectHandOrientation` (current value; the
comment records it was raised from 0.4). -/
def PALM_THRESHOLD : ℝ := 0.6

/-- `BACK_THRESHOLD = -0.6` in `detectHandOrientation`. -/
def BACK_THRESHOLD : ℝ := -0.6

/-- The hysteresis tail of `detectHandOrientation` (HandTracker.tsx):
given the previous label (`null` when unclassified) and the computed
`palmScore`, produce the new label.  While `'palm'`, flip to `'back'`
only when the score falls below `BACK_THRESHOLD`; while `'back'`, flip to
`'palm'` only when it rises above `PALM_THRESHOLD`; the initial
classification is `palmScore >= 0 ? 'palm' : 'back'`. -/
def hysteresisStep (prev : Option Facing) (palmScore : ℝ) : Facing :=
  match prev with
  | some Facing.palm => if palmScore < BACK_THRESHOLD then .back else .palm
  | some Facing.back => if PALM_THRESHOLD < palmScore then .palm else .back
  | none => if 0 ≤ palmScore then .palm else .back

/-- Iterated hysteresis: fold a list of subsequent scores through
`hysteresisStep`, starting from an already-assigned label. -/
def hysteresisRun (start : Facing) (scores : List ℝ) : Facing :=
  scores.foldl (fun l sc => hysteresisStep (some l) sc) start

/-- JavaScript `Math.trunc` (round toward zero) on a real argument. -/
def jsTrunc (q : ℝ) : ℤ := if 0 ≤ q then ⌊q⌋ else ⌈q⌉

/-- The JavaScript remainder operator `a % b`: `a - b * Math.trunc(a / b)`;
the result takes the sign of the dividend `a` (unlike a Euclidean or
floor-based modulo). -/
def jsRem (a b : ℝ) : ℝ := a - b * (jsTrunc (a / b) : ℝ)

/-- JavaScript `Math.atan2(y, x)`, written over `Real.arctan` with the
standard quadrant case split (`atan2(0, 0) = 0`). -/
def atan2 (y x : ℝ) : ℝ :=
  if 0 < x then Real.arctan (y / x)
  else if x < 0 then
    (if 0 ≤ y then Real.arctan (y / x) + Real.pi
     else Real.arctan (y / x) - Real.pi)
  else
    (if 0 < y then Real.pi / 2 else if y < 0 then -(Real.pi / 2) else 0)

/-- Ring.tsx tuning constants used by the embedded stages. -/
def BASE_DISTANCE : ℝ := 30

/-- `SCALE_RESPONSE = 220` (Ring.tsx). -/
def SCALE_RESPONSE : ℝ := 220

/-- `MOTION_ATTENUATION_THRESHOLD = 0.005` (Ring.tsx). -/
def MOTION_ATTENUATION_THRESHOLD : ℝ := 0.005

/-- `MOTION_ATTENUATION_POWER = 0.5` (Ring.tsx; used as a multiplier on the
motion intensity, the power-law exponent itself is the literal 0.9). -/
def MOTION_ATTENUATION_POWER : ℝ := 0.5

/-- `MOTION_ATTENUATION_MIN = 0.5` (Ring.tsx). -/
def MOTION_ATTENUATION_MIN : ℝ := 0.5

/-- `WORLD_SPEED_ATTENUATION_GAIN = 0.02` (Ring.tsx). -/
def WORLD_SPEED_ATTENUATION_GAIN : ℝ := 0.02

/-- `WORLD_SPEED_ATTENUATION_POWER = 0.5` (Ring.tsx). -/
def WORLD_SPEED_ATTENUATION_POWER : ℝ := 0.5

/-- `SMOOTH_EPS = 1e-3` (Ring.tsx, inside `useFrame`). -/
def SMOOTH_EPS : ℝ := 1e-3

/-- The shared `computeAlpha(response, baseStrength, attenuation)` closure
of Ring.tsx `useFrame`; it captures the user slider `positionSmoothing`
(`smoothingStrength`) and the frame `delta`, which are passed here
explicitly.  Low combined strength short-circuits to an instant update
(alpha 1); otherwise an exponential-approach alpha is blended toward 1 by
`0.8` times the attenuation boost. -/
def computeAlpha (smoothingStrength delta response baseStrength
    attenuation : ℝ) : ℝ :=
  let sliderStrength := clamp smoothingStrength 0 1
  let combinedStrength := max baseStrength sliderStrength
  if combinedStrength ≤ SMOOTH_EPS then 1
  else
    let clampedStrength := clamp combinedStrength SMOOTH_EPS 1
    let baseAlpha := 1 - Real.exp (-response * clampedStrength * delta)
    let attenuationBoost := clamp (1 - attenuation) 0 1
    if attenuationBoost ≤ SMOOTH_EPS then baseAlpha
    else lerp baseAlpha 1 (attenuationBoost * 0.8)

/-- The screen-space motion attenuation of Ring.tsx `useFrame`: for a
positive raw-anchor displacement, a power-law (`motionFactorNorm ** 0.9`)
intensity scaled by `MOTION_ATTENUATION_POWER` pulls the factor down from
1, floored at `MOTION_ATTENUATION_MIN`; a zero displacement (including
the reinitialization frame) leaves the factor at 1. -/
def screenAttenuation (rawDelta : ℝ) : ℝ :=
  if 0 < rawDelta then
    let motionFactorNorm := clamp (rawDelta / MOTION_ATTENUATION_THRESHOLD) 0 1
    let motionIntensity := motionFactorNorm ^ (0.9 : ℝ)
    max MOTION_ATTENUATION_MIN (1 - motionIntensity * MOTION_ATTENUATION_POWER)
  else 1

/-- The world-speed attenuation of Ring.tsx `useFrame` (computed inside the
`worldSpeed > 0` branch). -/
def worldAttenuation (worldSpeed : ℝ) : ℝ :=
  let worldFactor := clamp (worldSpeed * WORLD_SPEED_ATTENUATION_GAIN) 0 1
  max MOTION_ATTENUATION_MIN (1 - worldFactor * WORLD_SPEED_ATTENUATION_POWER)

/-- The value of `smoothingAttenuation` after the world-speed feedback
block of Ring.tsx `useFrame`: the world-speed source is folded in with
`Math.min` only when the anchor was already initialized this frame and the
measured world speed is positive. -/
def attenAfterWorld (screen : ℝ) (anchorWasInitialized : Bool)
    (worldSpeed : ℝ) : ℝ :=
  if anchorWasInitialized ∧ 0 < worldSpeed then
    min screen (worldAttenuation worldSpeed)
  else screen

/-- The attenuation value actually passed to `computeAlpha` at each call
site of Ring.tsx `useFrame`, in source order.  `depth` is the attenuation
seen by the depth (`smoothedDistance`) alpha, which the source computes
BEFORE the world-speed feedback block; all later call sites (position,
diameter/width, scale, view-axis angle, closure, tilt) see the value
after the `Math.min` with the world-speed attenuation. -/
structure FrameAttenuation where
  depth : ℝ
  position : ℝ
  width : ℝ
  scale : ℝ
  angle : ℝ
  closure : ℝ
  tilt : ℝ

/-- Computes the per-call-site attenuation values for one frame from the
raw-anchor displacement, the world speed of the final anchor, and whether
the world anchor was initialized on a previous frame (source order:
screen-space attenuation, depth alpha, world-speed `Math.min`, remaining
alphas). -/
def frameAttenuation (rawDelta worldSpeed : ℝ)
    (anchorWasInitialized : Bool) : FrameAttenuation :=
  let screen := screenAttenuation rawDelta
  let later := attenAfterWorld screen anchorWasInitialized worldSpeed
  { depth := screen, position := later, width := later, scale := later,
    angle := later, closure := later, tilt := later }

/-- The jitter dead-zone easing stage of Ring.tsx `useFrame` (the
`filteredAnchorInitialized` else-branch), for a previous filtered anchor
`(prevX, prevY)` and an incoming blended anchor `(anchorX, anchorY)`:
`deadzone = max(0, jitterDeadzone)`; within the zone the delta is scaled
by the smoothstep of `diff / max(deadzone, 1e-6)`; between one and three
radii the output lerps from previous to new by `(diff - deadzone) /
(deadzone * 2)`; beyond that (or with a non-positive deadzone) the new
anchor passes through unchanged. -/
def jitterDeadzoneStage (jitterDeadzone prevX prevY anchorX anchorY : ℝ) :
    ℝ × ℝ :=
  let deadzone := max 0 jitterDeadzone
  let deltaX := anchorX - prevX
  let deltaY := anchorY - prevY
  let diff := Real.sqrt (deltaX * deltaX + deltaY * deltaY)
  if 0 < deadzone then
    if diff < deadzone then
      let softness := clamp (diff / max deadzone 1e-6) 0 1
      let eased := softness * softness * (3 - 2 * softness)
      (prevX + deltaX * eased, prevY + deltaY * eased)
    else if diff < deadzone * 3 then
      let t := (diff - deadzone) / (deadzone * 2)
      let eased := clamp t 0 1
      (lerp prevX anchorX eased, lerp prevY anchorY eased)
    else (anchorX, anchorY)
  else (anchorX, anchorY)

/-- The x-coordinate of the dead-zone stage as a function of the
displacement magnitude, for a previous anchor at the origin and the new
anchor at `(m, 0)`: the trajectory along which the claim's "continuous
function of the displacement magnitude" is examined. -/
def deadzoneOutputAt (jitterDeadzone m : ℝ) : ℝ :=
  (jitterDeadzoneStage jitterDeadzone 0 0 m 0).1

/-- The mirrored screen-space target angle of Ring.tsx `useFrame`:
`x13s = 1 - p13.x`, `y13s = p13.y`, `x14s = 1 - p14.x`, `y14s = p14.y`,
`segAngle = atan2(y14s - y13s, x14s - x13s)`, `targetAngle = -segAngle +
0.5`. -/
def ringTargetAngle (p13 p14 : Vec3) : ℝ :=
  let x13s := 1 - p13.x
  let y13s := p13.y
  let x14s := 1 - p14.x
  let y14s := p14.y
  let segAngle := atan2 (y14s - y13s) (x14s - x13s)
  let targetAngle := -segAngle + 0.5
  targetAngle

/-- The signed angular difference the view-axis roll update applies
(Ring.tsx `useFrame`): `diff = ((targetAngle - curr + Math.PI) % (2 *
Math.PI)) - Math.PI`, with `%` the JavaScript remainder. -/
def viewAxisDiff (curr targetAngle : ℝ) : ℝ :=
  jsRem (targetAngle - curr + Real.pi) (2 * Real.pi) - Real.pi

/-- The running mutable state of the Ring component relevant to the
per-frame pose composition: the `useRef` cells of Ring.tsx (initialization
flags, smoothed signals, previous/filtered anchors) plus the group's idle
rotation angles. -/
structure RingState where
  anchorInitialized : Bool
  rawAnchorInitialized : Bool
  filteredAnchorInitialized : Bool
  microAnchorInitialized : Bool
  smoothedFingerDiameterNorm : Option ℝ
  smoothedDistance : ℝ
  smoothedHandClosure : ℝ
  targetScale : ℝ
  viewAxisAngle : ℝ
  tiltX : ℝ
  smoothedPosition : Vec3
  prevAnchor : Vec3
  anchorVelocity : Vec3
  prevRawAnchorNorm : ℝ × ℝ
  prevFilteredAnchorNorm : ℝ × ℝ
  microAnchorNorm : ℝ × ℝ
  rotX : ℝ
  rotY : ℝ

namespace RingState

/-- The initial values of the Ring component's `useRef` cells, as declared
in Ring.tsx (`targetScale = useRef(1)`, `viewAxisAngle = useRef(0)`,
`smoothedDistance = useRef(BASE_DISTANCE)`, vectors zeroed, flags false,
`smoothedFingerDiameterNorm = useRef(null)`). -/
def init : RingState :=
  { anchorInitialized := false, rawAnchorInitialized := false,
    filteredAnchorInitialized := false, microAnchorInitialized := false,
    smoothedFingerDiameterNorm := none, smoothedDistance := BASE_DISTANCE,
    smoothedHandClosure := 0, targetScale := 1, viewAxisAngle := 0,
    tiltX := 0, smoothedPosition := ⟨0, 0, 0⟩, prevAnchor := ⟨0, 0, 0⟩,
    anchorVelocity := ⟨0, 0, 0⟩, prevRawAnchorNorm := (0, 0),
    prevFilteredAnchorNorm := (0, 0), microAnchorNorm := (0, 0),
    rotX := 0, rotY := 0 }

end RingState

/-- The no-hand else branch of Ring.tsx `useFrame` (lines guarded by the
absence of 21 landmarks): invalidates the anchor/diameter/distance/closure
state and advances the idle rotation by `delta * 0.8` and `delta * 0.6`;
`targetScale`, `viewAxisAngle`, `tiltX`, `smoothedPosition`,
`prevAnchor`, `anchorVelocity` and the stored previous anchors are left
untouched. -/
def noHandStep (delta : ℝ) (s : RingState) : RingState :=
  { s with
    anchorInitialized := false
    smoothedFingerDiameterNorm := none
    smoothedDistance := BASE_DISTANCE
    rawAnchorInitialized := false
    filteredAnchorInitialized := false
    microAnchorInitialized := false
    smoothedHandClosure := 0
    rotX := s.rotX + delta * 0.8
    rotY := s.rotY + delta * 0.6 }

/-- The per-frame update of `targetScale` in Ring.tsx `useFrame`
(`targetScale.current = lerp(targetScale.current, fitScale, scaleAlpha)`
with `scaleAlpha = computeAlpha(SCALE_RESPONSE, 0.04, attenuation)`); the
fit scale computed upstream from the smoothed diameter, distance and
camera is passed in. -/
def targetScaleStep (s : RingState) (smoothingStrength delta fitScale
    attenuation : ℝ) : ℝ :=
  lerp s.targetScale fitScale
    (computeAlpha smoothingStrength delta SCALE_RESPONSE 0.04 attenuation)

/-- The per-detection-frame state of HandTracker.tsx that the no-landmark
branch resets: the landmark stabilizer, the palm-score EMA, the last
orientation label and the cached previous raw landmarks. -/
structure HandTrackerState where
  stabilizer : LandmarkStabilizer
  palmScoreEma : EmaValue
  lastOrientation : Option Facing
  prevRawLandmarks : Option (List Vec3)

/-- The no-landmark else branch of the HandTracker detection loop:
clears the published landmarks/score/orientation and resets the stabilizer
and the palm-score EMA. -/
def handTrackerNoHand (st : HandTrackerState) : HandTrackerState :=
  { stabilizer := st.stabilizer.reset,
    palmScoreEma := st.palmScoreEma.reset,
    lastOrientation := none,
    prevRawLandmarks := none }

/-- The rolling velocity history update of `StabilizationFilter.update`:
push the current instantaneous velocity, then drop the oldest entry once
more than `VELOCITY_HISTORY_SIZE` (5) entries are held. -/
def rollHistory (hist : List Vec3) (cv : Vec3) : List Vec3 :=
  let pushed := hist ++ [cv]
  if StabilizationFilter.VELOCITY_HISTORY_SIZE < pushed.length then
    pushed.drop 1
  else pushed

/-- The average velocity over a rolling history, as
`StabilizationFilter.update` computes it (componentwise sum divided by the
history length). -/
def avgOfHistory (hist : List Vec3) : Vec3 :=
  let sumV := hist.foldl
    (fun acc v => Vec3.mk (acc.x + v.x) (acc.y + v.y) (acc.z + v.z))
    ⟨0, 0, 0⟩
  ⟨sumV.x / (hist.length : ℝ), sumV.y / (hist.length : ℝ),
   sumV.z / (hist.length : ℝ)⟩

/-- A concrete mid-motion stabilization filter state (balanced-preset
tunables, seeded previous sample, zero running velocity and empty history)
used to exercise the fast intentional-motion branch on a concrete input. -/
def predictionProbeFilter : StabilizationFilter :=
  { prev := some ⟨0.3, 0.5, -0.5⟩, velocity := ⟨0, 0, 0⟩,
    acceleration := ⟨0, 0, 0⟩, velocityHistory := [],
    oneEuroX := OneEuroFilter.init 3 0.02 2,
    oneEuroY := OneEuroFilter.init 3 0.02 2,
    oneEuroZ := OneEuroFilter.init 3 0.02 2,
    lastTimestamp := 0, stableFrames := 0, deadZone := 0.0003,
    velocitySmoothing := 0.15, jitterThreshold := 0.0015,
    predictionStrength := 0.35 }

/-- The valid landmark domain: x and y are normalized screen coordinates
in [0,1], z a relative depth in [-1,1] (the ranges the prediction branch
clamps to). -/
def inDomain (p : Vec3) : Prop :=
  (0 ≤ p.x ∧ p.x ≤ 1) ∧ (0 ≤ p.y ∧ p.y ≤ 1) ∧ (-1 ≤ p.z ∧ p.z ≤ 1)

/-- Positive one-euro cutoffs: a positive minimum cutoff and derivative
cutoff, and a nonnegative speed coefficient, so that the adaptive cutoff
`minCutoff + beta * |dx|` is positive for every derivative estimate. -/
def euroCutoffsOK (f : OneEuroFilter) : Prop :=
  0 < f.minCutoff ∧ 0 ≤ f.beta ∧ 0 < f.dCutoff

/-- Positive cutoffs on all three per-axis one-euro filters. -/
def stabCutoffsOK (s : StabilizationFilter) : Prop :=
  euroCutoffsOK s.oneEuroX ∧ euroCutoffsOK s.oneEuroY ∧
    euroCutoffsOK s.oneEuroZ

/-- The domain invariant on the running state of a `StabilizationFilter`:
the stored previous output and the three one-euro stored values (when
seeded) lie in the valid landmark domain. -/
def stabDomainInv (s : StabilizationFilter) : Prop :=
  (∀ p, s.prev = some p → inDomain p) ∧
  (∀ a, s.oneEuroX.x = some a → 0 ≤ a ∧ a ≤ 1) ∧
  (∀ a, s.oneEuroY.x = some a → 0 ≤ a ∧ a ≤ 1) ∧
  (∀ a, s.oneEuroZ.x = some a → -1 ≤ a ∧ a ≤ 1)

/-- Feeding a list of (point, timestamp) samples through a
`StabilizationFilter`, collecting the returned outputs. -/
def runOutputs (s : StabilizationFilter) : List (Vec3 × ℝ) → List Vec3
  | [] => []
  | (p, t) :: rest => (s.update p t).1 :: runOutputs (s.update p t).2 rest

/-!  ## Theorems  -/

section Theorems

/-- Helper: a score strictly inside the hysteresis band leaves any
already-assigned label unchanged. -/
theorem hysteresisStep_fixed (l : Facing) (sc : ℝ)
    (h : |sc| < PALM_THRESHOLD) : hysteresisStep (some l) sc = l := by
  have h1 : BACK_THRESHOLD < sc := by
    have := abs_lt.mp h
    simp only [PALM_THRESHOLD] at this
    simp only [BACK_THRESHOLD]
    linarith [this.1]
  have h2 : sc < PALM_THRESHOLD := (abs_lt.mp h).2
  cases l with
  | palm =>
    simp only [hysteresisStep, if_neg (not_lt.mpr (le_of_lt h1))]
  | back =>
    simp only [hysteresisStep, if_neg (not_lt.mpr (le_of_lt h2))]

/-- Claim C5: while the computed orientation scores stay strictly inside
the hysteresis band (|score| < 0.6), the discrete palm/back label never
changes after its initial assignment; a `'palm'` label flips to `'back'`
exactly when the score falls below -0.6, a `'back'` label flips to
`'palm'` exactly when it rises above +0.6, and the initial classification
takes the sign of the first score (`>= 0` mapping to `'palm'`). -/
theorem orientation_hysteresis_no_flicker (s0 : ℝ) (scores : List ℝ)
    (hb : ∀ sc ∈ scores, |sc| < PALM_THRESHOLD) :
    hysteresisRun (hysteresisStep none s0) scores = hysteresisStep none s0 ∧
    (∀ sc : ℝ, hysteresisStep (some .palm) sc = .back ↔ sc < BACK_THRESHOLD) ∧
    (∀ sc : ℝ, hysteresisStep (some .back) sc = .palm ↔ PALM_THRESHOLD < sc) ∧
    (0 ≤ s0 → hysteresisStep none s0 = .palm) ∧
    (s0 < 0 → hysteresisStep none s0 = .back) := by
  refine ⟨?_, ?_, ?_, ?_, ?_⟩
  · induction scores with
    | nil => rfl
    | cons a tl ih =>
      have ha : |a| < PALM_THRESHOLD := hb a (List.mem_cons_self a tl)
      have htl : ∀ sc ∈ tl, |sc| < PALM_THRESHOLD := fun sc hsc =>
        hb sc (List.mem_cons_of_mem a hsc)
      unfold hysteresisRun
      simp only [List.foldl_cons, hysteresisStep_fixed _ a ha]
      exact ih htl
  · intro sc
    by_cases hlt : sc < BACK_THRESHOLD
    · simp [hysteresisStep, hlt]
    · simp [hysteresisStep, hlt]
  · intro sc
    by_cases hlt : PALM_THRESHOLD < sc
    · simp [hysteresisStep, hlt]
    · simp [hysteresisStep, hlt]
  · intro h0
    simp [hysteresisStep, h0]
  · intro h0
    simp [hysteresisStep, not_le.mpr h0]

/-- Witness for C5 at a concrete oscillating score sequence. -/
theorem orientation_hysteresis_no_flicker_witness :
    (∀ sc ∈ [(0.5 : ℝ), -0.5, 0.3, -0.59], |sc| < PALM_THRESHOLD) ∧
    hysteresisRun (hysteresisStep none 0.2) [(0.5 : ℝ), -0.5, 0.3, -0.59] =
      hysteresisStep none 0.2 := by
  have hb : ∀ sc ∈ [(0.5 : ℝ), -0.5, 0.3, -0.59], |sc| < PALM_THRESHOLD := by
    intro sc hsc
    simp only [List.mem_cons, List.not_mem_nil, or_false] at hsc
    rcases hsc with rfl | rfl | rfl | rfl <;>
      rw [abs_lt] <;> constructor <;> norm_num [PALM_THRESHOLD]
  exact ⟨hb, (orientation_hysteresis_no_flicker 0.2 _ hb).1⟩

/-- Claim C9: the very first `update` on a freshly constructed or freshly
reset `OneEuroFilter`, `StabilizationFilter` or `EmaValue` returns the
input unchanged and seeds the internal state (stored value and, for the
timestamped filters, the last timestamp) with that first sample. -/
theorem first_sample_identity (v t : ℝ) (p : Vec3)
    (mc b dc dz vs jt ps oc ob od al : ℝ)
    (f : OneEuroFilter) (s : StabilizationFilter) (e : EmaValue) :
    ((OneEuroFilter.init mc b dc).update v t).1 = v ∧
    ((OneEuroFilter.init mc b dc).update v t).2.x = some v ∧
    ((OneEuroFilter.init mc b dc).update v t).2.lastTime = t ∧
    (f.reset.update v t).1 = v ∧
    (f.reset.update v t).2.x = some v ∧
    (f.reset.update v t).2.lastTime = t ∧
    ((StabilizationFilter.init dz vs jt ps oc ob od).update p t).1 = p ∧
    ((StabilizationFilter.init dz vs jt ps oc ob od).update p t).2.prev
      = some p ∧
    ((StabilizationFilter.init dz vs jt ps oc ob od).update p t).2.lastTimestamp
      = t ∧
    (s.reset.update p t).1 = p ∧
    (s.reset.update p t).2.prev = some p ∧
    (s.reset.update p t).2.lastTimestamp = t ∧
    ((EmaValue.init al).update v).1 = v ∧
    ((EmaValue.init al).update v).2.value = some v ∧
    (e.reset.update v).1 = v ∧
    (e.reset.update v).2.value = some v := by
  refine ⟨rfl, rfl, rfl, rfl, rfl, rfl, rfl, rfl, rfl, rfl, rfl, rfl, rfl,
    rfl, rfl, rfl⟩

/-- Claim C6: on a filter already seeded with a sample, an `update` whose
timestamp does not exceed the stored last timestamp returns the
previously stored output and leaves the state untouched (so a second such
call behaves identically); this is the `dt <= 0` guard of
`OneEuroFilter.update` and the `dt <= EPSILON` guard of
`StabilizationFilter.update`, which short-circuit before any division by
`dt`. -/
theorem nonincreasing_dt_guard (f : OneEuroFilter) (x0 : ℝ)
    (hx : f.x = some x0) (v t v2 t2 : ℝ)
    (ht : t ≤ f.lastTime) (ht2 : t2 ≤ t)
    (s : StabilizationFilter) (p : Vec3) (hp : s.prev = some p)
    (q q2 : Vec3) (u u2 : ℝ) (hu : u ≤ s.lastTimestamp) (hu2 : u2 ≤ u) :
    f.update v t = (x0, f) ∧
    ((f.update v t).2).update v2 t2 = (x0, f) ∧
    s.update q u = (p, s) ∧
    ((s.update q u).2).update q2 u2 = (p, s) := by
  have h1 : f.update v t = (x0, f) := by
    simp only [OneEuroFilter.update, hx]
    rw [if_pos (by linarith)]
  have h2 : s.update q u = (p, s) := by
    simp only [StabilizationFilter.update, hp]
    rw [if_pos (show u - s.lastTimestamp ≤ EPSILON by
      simp only [EPSILON]; norm_num; linarith)]
  refine ⟨h1, ?_, h2, ?_⟩
  · rw [h1]
    simp only [OneEuroFilter.update, hx]
    rw [if_pos (by linarith)]
  · rw [h2]
    simp only [StabilizationFilter.update, hp]
    rw [if_pos (show u2 - s.lastTimestamp ≤ EPSILON by
      simp only [EPSILON]; norm_num; linarith)]

/-- Witness for C6: a seeded one-euro filter and a seeded stabilization
filter, each called with a timestamp at or before the stored one, return
the stored output with the state unchanged. -/
theorem nonincreasing_dt_guard_witness :
    (⟨some 1, 0, 5, 1.5, 0.007, 1⟩ : OneEuroFilter).update 7 4 =
      (1, ⟨some 1, 0, 5, 1.5, 0.007, 1⟩) ∧
    (⟨some ⟨0.5, 0.5, 0⟩, ⟨0, 0, 0⟩, ⟨0, 0, 0⟩, [],
        OneEuroFilter.init 3 0.02 2, OneEuroFilter.init 3 0.02 2,
        OneEuroFilter.init 3 0.02 2, 5, 0, 0.0003, 0.15, 0.0015, 0.35⟩ :
        StabilizationFilter).update ⟨0.9, 0.1, 0⟩ 5 =
      (⟨0.5, 0.5, 0⟩,
        ⟨some ⟨0.5, 0.5, 0⟩, ⟨0, 0, 0⟩, ⟨0, 0, 0⟩, [],
          OneEuroFilter.init 3 0.02 2, OneEuroFilter.init 3 0.02 2,
          OneEuroFilter.init 3 0.02 2, 5, 0, 0.0003, 0.15, 0.0015, 0.35⟩) := by
  have h := nonincreasing_dt_guard
    (⟨some 1, 0, 5, 1.5, 0.007, 1⟩ : OneEuroFilter) 1 rfl 7 4 7 3
    (by norm_num) (by norm_num)
    (⟨some ⟨0.5, 0.5, 0⟩, ⟨0, 0, 0⟩, ⟨0, 0, 0⟩, [],
        OneEuroFilter.init 3 0.02 2, OneEuroFilter.init 3 0.02 2,
        OneEuroFilter.init 3 0.02 2, 5, 0, 0.0003, 0.15, 0.0015, 0.35⟩ :
        StabilizationFilter) ⟨0.5, 0.5, 0⟩ rfl ⟨0.9, 0.1, 0⟩ ⟨0.9, 0.1, 0⟩
    5 4 (by norm_num) (by norm_num)
  exact ⟨h.1, h.2.2.1⟩

/-- Claim C2: `LandmarkStabilizer.apply` hard-fails (throws, modelled as an
error result with the stabilizer state returned untouched) on any input
whose length is not 21 -- the check precedes every filter update -- and on
a 21-point input returns exactly 21 stabilized points, the i-th being the
positional filter update of the i-th landmark; a freshly initialized
stabilizer owns exactly 21 filters. -/
theorem landmark_stabilizer_shape (st : LandmarkStabilizer)
    (lms : List Vec3) (t : ℝ) (mode : StabilizerMode) :
    (lms.length ≠ 21 →
      st.apply lms t = (Except.error "Expected 21 landmarks", st)) ∧
    (lms.length = 21 → st.filters.length = 21 →
      ∃ out st2, st.apply lms t = (Except.ok out, st2) ∧
        out.length = 21 ∧
        out = List.zipWith
          (fun lm f => (StabilizationFilter.update f lm t).1)
          lms st.filters) ∧
    (LandmarkStabilizer.init mode).filters.length = 21 := by
  refine ⟨?_, ?_, ?_⟩
  · intro hne
    simp only [LandmarkStabilizer.apply, if_pos hne]
  · intro hlen hfl
    refine ⟨(List.zipWith (fun lm f => StabilizationFilter.update f lm t)
        lms st.filters).map Prod.fst,
      ⟨(List.zipWith (fun lm f => StabilizationFilter.update f lm t)
        lms st.filters).map Prod.snd⟩, ?_, ?_, ?_⟩
    · simp only [LandmarkStabilizer.apply, hlen]
      norm_num
    · simp only [List.length_map, List.length_zipWith, hlen, hfl, min_self]
    · rw [List.map_zipWith]
  · simp only [LandmarkStabilizer.init, List.length_replicate]

/-- Witness for C2: a 20-point input errors with the state unchanged; a
21-point input yields 21 outputs. -/
theorem landmark_stabilizer_shape_witness :
    ((20 : ℕ) ≠ 21 ∧
      (LandmarkStabilizer.init .balanced).apply
          (List.replicate 20 ⟨0.5, 0.5, 0⟩) 1 =
        (Except.error "Expected 21 landmarks",
          LandmarkStabilizer.init .balanced)) ∧
    ∃ out st2,
      (LandmarkStabilizer.init .balanced).apply
          (List.replicate 21 ⟨0.5, 0.5, 0⟩) 1 = (Except.ok out, st2) ∧
      out.length = 21 := by
  have h20 := (landmark_stabilizer_shape (LandmarkStabilizer.init .balanced)
    (List.replicate 20 ⟨0.5, 0.5, 0⟩) 1 .balanced).1
  have h21 := (landmark_stabilizer_shape (LandmarkStabilizer.init .balanced)
    (List.replicate 21 ⟨0.5, 0.5, 0⟩) 1 .balanced).2.1
  have hlen := (landmark_stabilizer_shape (LandmarkStabilizer.init .balanced)
    (List.replicate 21 ⟨0.5, 0.5, 0⟩) 1 .balanced).2.2
  refine ⟨⟨by norm_num, h20 (by simp)⟩, ?_⟩
  obtain ⟨out, st2, happ, hl, -⟩ := h21 (by simp) hlen
  exact ⟨out, st2, happ, hl⟩

/-- Helper: the clamp helper stays inside its bounds. -/
theorem clamp_mem_Icc (v lo hi : ℝ) (h : lo ≤ hi) :
    lo ≤ clamp v lo hi ∧ clamp v lo hi ≤ hi :=
  ⟨le_max_left _ _, max_le h (min_le_left _ _)⟩

/-- Helper: the screen-space attenuation factor lies in
[MOTION_ATTENUATION_MIN, 1]. -/
theorem screenAttenuation_bounds (rawDelta : ℝ) :
    MOTION_ATTENUATION_MIN ≤ screenAttenuation rawDelta ∧
      screenAttenuation rawDelta ≤ 1 := by
  unfold screenAttenuation
  by_cases h : (0 : ℝ) < rawDelta
  · rw [if_pos h]
    have hc := clamp_mem_Icc (rawDelta / MOTION_ATTENUATION_THRESHOLD) 0 1
      (by norm_num)
    have hpow0 : 0 ≤ clamp (rawDelta / MOTION_ATTENUATION_THRESHOLD) 0 1
        ^ (0.9 : ℝ) := Real.rpow_nonneg hc.1 _
    have hpow1 : clamp (rawDelta / MOTION_ATTENUATION_THRESHOLD) 0 1
        ^ (0.9 : ℝ) ≤ 1 := Real.rpow_le_one hc.1 hc.2 (by norm_num)
    constructor
    · exact le_max_left _ _
    · apply max_le
      · simp only [MOTION_ATTENUATION_MIN]; norm_num
      · simp only [MOTION_ATTENUATION_POWER]; nlinarith
  · rw [if_neg h]
    simp only [MOTION_ATTENUATION_MIN]
    norm_num

/-- Helper: the world-speed attenuation factor lies in
[MOTION_ATTENUATION_MIN, 1]. -/
theorem worldAttenuation_bounds (worldSpeed : ℝ) :
    MOTION_ATTENUATION_MIN ≤ worldAttenuation worldSpeed ∧
      worldAttenuation worldSpeed ≤ 1 := by
  unfold worldAttenuation
  have hc := clamp_mem_Icc (worldSpeed * WORLD_SPEED_ATTENUATION_GAIN) 0 1
    (by norm_num)
  constructor
  · exact le_max_left _ _
  · apply max_le
    · simp only [MOTION_ATTENUATION_MIN]; norm_num
    · simp only [WORLD_SPEED_ATTENUATION_POWER]; nlinarith [hc.1, hc.2]

/-- Counterexample for claim C8: on a frame where the raw screen-space
anchor displacement is zero but the world speed is large (for example a
pure depth change), the attenuation fed to the depth-smoothing alpha is
the screen-only value 1, not the min of the two sources (0.5) -- the
source computes the depth alpha before folding in the world-speed
attenuation. -/
theorem attenuation_depth_not_min_counterexample :
    (frameAttenuation 0 100 true).depth ≠
      min (screenAttenuation 0) (worldAttenuation 100) := by
  simp only [frameAttenuation, screenAttenuation, worldAttenuation,
    attenAfterWorld, clamp, MOTION_ATTENUATION_MIN,
    WORLD_SPEED_ATTENUATION_GAIN, WORLD_SPEED_ATTENUATION_POWER,
    MOTION_ATTENUATION_THRESHOLD, MOTION_ATTENUATION_POWER]
  norm_num

/-- Claim C8 (amended): all smoothing-alpha call sites except the depth one
receive the min of the screen-space and world-speed attenuations (the
world source applying only when the world anchor was initialized and the
speed is positive); the depth alpha receives the screen-space attenuation
alone, because the source computes it before the world-speed feedback
block; every attenuation value lies in [MOTION_ATTENUATION_MIN, 1] =
[0.5, 1]. -/
theorem motion_attenuation_sources_and_bounds (rawDelta worldSpeed : ℝ)
    (ai : Bool) :
    (frameAttenuation rawDelta worldSpeed ai).depth
      = screenAttenuation rawDelta ∧
    (frameAttenuation rawDelta worldSpeed ai).position =
      (if ai ∧ 0 < worldSpeed then
        min (screenAttenuation rawDelta) (worldAttenuation worldSpeed)
       else screenAttenuation rawDelta) ∧
    (frameAttenuation rawDelta worldSpeed ai).width
      = (frameAttenuation rawDelta worldSpeed ai).position ∧
    (frameAttenuation rawDelta worldSpeed ai).scale
      = (frameAttenuation rawDelta worldSpeed ai).position ∧
    (frameAttenuation rawDelta worldSpeed ai).angle
      = (frameAttenuation rawDelta worldSpeed ai).position ∧
    (frameAttenuation rawDelta worldSpeed ai).closure
      = (frameAttenuation rawDelta worldSpeed ai).position ∧
    (frameAttenuation rawDelta worldSpeed ai).tilt
      = (frameAttenuation rawDelta worldSpeed ai).position ∧
    MOTION_ATTENUATION_MIN ≤ (frameAttenuation rawDelta worldSpeed ai).depth ∧
    (frameAttenuation rawDelta worldSpeed ai).depth ≤ 1 ∧
    MOTION_ATTENUATION_MIN ≤
      (frameAttenuation rawDelta worldSpeed ai).position ∧
    (frameAttenuation rawDelta worldSpeed ai).position ≤ 1 := by
  have hs := screenAttenuation_bounds rawDelta
  have hw := worldAttenuation_bounds worldSpeed
  refine ⟨rfl, rfl, rfl, rfl, rfl, rfl, rfl, hs.1, hs.2, ?_, ?_⟩
  · simp only [frameAttenuation, attenAfterWorld]
    split
    · exact le_min hs.1 hw.1
    · exact hs.1
  · simp only [frameAttenuation, attenAfterWorld]
    split
    · exact min_le_of_left_le hs.2
    · exact hs.2

/-- Counterexample for claim C1: the no-hand branch does not reset
`targetScale` (nor the view-axis angle, tilt or smoothed position), so
after a hand-loss frame the pipeline state differs from a freshly
constructed component (`targetScale` 2 versus 1), and on the next valid
frame the composed scale output -- here with the same frame-derived fit
scale 3, slider 0, frame delta 1/60 and attenuation 1 on both sides --
differs from the fresh pipeline's output: the scale lerp keeps memory of
the pre-loss trajectory. -/
theorem no_hand_keeps_scale_counterexample :
    (noHandStep (1 / 60) { RingState.init with targetScale := 2 }).targetScale
      = 2 ∧
    RingState.init.targetScale = 1 ∧
    targetScaleStep
        (noHandStep (1 / 60) { RingState.init with targetScale := 2 })
        0 (1 / 60) 3 1 ≠
      targetScaleStep RingState.init 0 (1 / 60) 3 1 := by
  refine ⟨rfl, rfl, ?_⟩
  have hexp := Real.exp_pos (-SCALE_RESPONSE * clamp (max 0.04 (clamp 0 0 1))
    SMOOTH_EPS 1 * (1 / 60))
  simp only [targetScaleStep, computeAlpha, noHandStep, RingState.init,
    lerp, clamp, SMOOTH_EPS, SCALE_RESPONSE] at hexp ⊢
  norm_num at hexp ⊢
  intro h
  nlinarith [hexp]

/-- Claim C1 (amended): the no-hand frame resets the anchor initialization
flags, smoothed finger diameter, smoothed distance and smoothed closure to
their freshly-constructed values, clears the published orientation, and
resets the landmark stabilizer and palm-score EMA to their uninitialized
(first-sample-seeding) state; but `targetScale`, `viewAxisAngle`, `tiltX`
and `smoothedPosition` are left untouched, so scale and rotation keep
memory across the gap; during hand loss the object performs the continuous
idle rotation `rotation.x += delta * 0.8`, `rotation.y += delta * 0.6`. -/
theorem no_hand_reset_scope (delta : ℝ) (s : RingState)
    (st : HandTrackerState) :
    (noHandStep delta s).anchorInitialized
      = RingState.init.anchorInitialized ∧
    (noHandStep delta s).rawAnchorInitialized
      = RingState.init.rawAnchorInitialized ∧
    (noHandStep delta s).filteredAnchorInitialized
      = RingState.init.filteredAnchorInitialized ∧
    (noHandStep delta s).microAnchorInitialized
      = RingState.init.microAnchorInitialized ∧
    (noHandStep delta s).smoothedFingerDiameterNorm
      = RingState.init.smoothedFingerDiameterNorm ∧
    (noHandStep delta s).smoothedDistance = RingState.init.smoothedDistance ∧
    (noHandStep delta s).smoothedHandClosure
      = RingState.init.smoothedHandClosure ∧
    (noHandStep delta s).targetScale = s.targetScale ∧
    (noHandStep delta s).viewAxisAngle = s.viewAxisAngle ∧
    (noHandStep delta s).tiltX = s.tiltX ∧
    (noHandStep delta s).smoothedPosition = s.smoothedPosition ∧
    (noHandStep delta s).rotX = s.rotX + delta * 0.8 ∧
    (noHandStep delta s).rotY = s.rotY + delta * 0.6 ∧
    (handTrackerNoHand st).lastOrientation = none ∧
    (handTrackerNoHand st).palmScoreEma.value = none ∧
    (handTrackerNoHand st).stabilizer.filters
      = st.stabilizer.filters.map StabilizationFilter.reset ∧
    (∀ fl : StabilizationFilter, fl.reset.prev = none ∧
      fl.reset.velocity = ⟨0, 0, 0⟩ ∧ fl.reset.acceleration = ⟨0, 0, 0⟩ ∧
      fl.reset.velocityHistory = [] ∧ fl.reset.lastTimestamp = 0 ∧
      fl.reset.stableFrames = 0 ∧ fl.reset.oneEuroX.x = none ∧
      fl.reset.oneEuroY.x = none ∧ fl.reset.oneEuroZ.x = none) := by
  refine ⟨rfl, rfl, rfl, rfl, rfl, rfl, rfl, rfl, rfl, rfl, rfl, rfl, rfl,
    rfl, rfl, rfl, fun fl => ⟨rfl, rfl, rfl, rfl, rfl, rfl, rfl, rfl, rfl⟩⟩

/-- Claim C4: at the concrete frame `p13 = (0.5, 0.5)`, `p14 = (0.4, 0.6)`
(mirrored screen-space segment delta `(0.1, 0.1)`, so `segAngle = atan2(0.1,
0.1) = pi/4` and `targetAngle = 0.5 - pi/4`) with previous smoothed
view-axis angle 3, the update applies the RAW angular difference
`targetAngle - curr = 0.5 - pi/4 - 3`, whose absolute value 2.5 + pi/4
exceeds pi: because the JavaScript `%` operator takes the dividend's sign,
`((target - curr + PI) % (2*PI)) - PI` equals the naive raw difference
whenever `target - curr + PI < 0`, the very behavior the specification
rules out. -/
theorem view_axis_raw_difference_at_wraparound :
    ringTargetAngle ⟨0.5, 0.5, 0⟩ ⟨0.4, 0.6, 0⟩ = 0.5 - Real.pi / 4 ∧
    viewAxisDiff 3 (0.5 - Real.pi / 4) = (0.5 - Real.pi / 4) - 3 ∧
    Real.pi < |(0.5 - Real.pi / 4) - 3| := by
  have hpi_lt : Real.pi < 3.15 := Real.pi_lt_d2
  have hpi_gt : (3 : ℝ) < Real.pi := Real.pi_gt_three
  have hpi_pos : (0 : ℝ) < Real.pi := Real.pi_pos
  refine ⟨?_, ?_, ?_⟩
  · simp only [ringTargetAngle, atan2]
    norm_num
    ring
  · have htwo : (0 : ℝ) < 2 * Real.pi := by linarith
    have hu_neg : 0.5 - Real.pi / 4 - 3 + Real.pi < 0 := by nlinarith
    have hq_neg : (0.5 - Real.pi / 4 - 3 + Real.pi) / (2 * Real.pi) < 0 :=
      div_neg_of_neg_of_pos hu_neg htwo
    have hq_gt : (-1 : ℝ) < (0.5 - Real.pi / 4 - 3 + Real.pi) / (2 * Real.pi)
        := by
      rw [lt_div_iff₀ htwo]
      nlinarith
    have htr : jsTrunc ((0.5 - Real.pi / 4 - 3 + Real.pi) / (2 * Real.pi))
        = 0 := by
      rw [jsTrunc, if_neg (not_le.mpr hq_neg), Int.ceil_eq_zero_iff]
      exact ⟨hq_gt, le_of_lt hq_neg⟩
    rw [viewAxisDiff, jsRem, htr]
    push_cast
    ring
  · have hneg : 0.5 - Real.pi / 4 - 3 < 0 := by nlinarith
    rw [abs_of_neg hneg]
    nlinarith

/-- Helper: for a displacement `0 < m < d`, the dead-zone stage with a
configured radius `d = 0.1`, previous anchor at the origin and new anchor
at `(m, 0)`, reduces to the smoothstep polynomial branch. -/
theorem deadzoneOutputAt_inside (m : ℝ) (h0 : 0 < m) (h1 : m < 0.1) :
    deadzoneOutputAt 0.1 m =
      0 + m * ((m / 0.1) * (m / 0.1) * (3 - 2 * (m / 0.1))) := by
  have hmax : max (0 : ℝ) 0.1 = 0.1 := by norm_num
  have hmax2 : max (0.1 : ℝ) 1e-6 = 0.1 := by norm_num
  have hdiff : Real.sqrt ((m - 0) * (m - 0) + (0 - 0) * (0 - 0)) = m := by
    have : (m - 0) * (m - 0) + ((0 : ℝ) - 0) * (0 - 0) = m ^ 2 := by ring
    rw [this, Real.sqrt_sq h0.le]
  have hclamp : clamp (m / 0.1) 0 1 = m / 0.1 := by
    have hle : m / 0.1 ≤ 1 := by
      rw [div_le_one (by norm_num : (0 : ℝ) < 0.1)]
      linarith
    have hge : 0 ≤ m / 0.1 := by positivity
    simp only [clamp, min_eq_right hle, max_eq_right hge]
  simp only [deadzoneOutputAt, jitterDeadzoneStage, hmax, hmax2, hdiff,
    hclamp, if_pos (show (0 : ℝ) < 0.1 by norm_num), if_pos h1]
  ring

/-- Counterexample for claim C3: with the positive configured dead-zone
radius 0.1, previous anchor at the origin and incoming anchor at `(m, 0)`,
the stage output is NOT a continuous function of the displacement
magnitude `m` at the dead-zone boundary `m = 0.1`: just inside the zone
the smoothstep easing tends to the full new anchor (limit 0.1), while at
the boundary the transition band starts back at the previous anchor
(value 0). -/
theorem deadzone_boundary_discontinuity :
    ¬ ContinuousAt (deadzoneOutputAt 0.1) 0.1 := by
  intro hc
  have hval : deadzoneOutputAt 0.1 0.1 = 0 := by
    have hdiff : Real.sqrt (((0.1 : ℝ) - 0) * (0.1 - 0) + (0 - 0) * (0 - 0))
        = 0.1 := by
      have : ((0.1 : ℝ) - 0) * (0.1 - 0) + ((0 : ℝ) - 0) * (0 - 0)
          = (0.1 : ℝ) ^ 2 := by ring
      rw [this, Real.sqrt_sq (by norm_num)]
    simp only [deadzoneOutputAt, jitterDeadzoneStage, hdiff, clamp, lerp]
    norm_num
  have hG : Filter.Tendsto
      (fun m : ℝ => 0 + m * ((m / 0.1) * (m / 0.1) * (3 - 2 * (m / 0.1))))
      (nhdsWithin 0.1 (Set.Ioo 0 0.1)) (nhds 0.1) := by
    have hcont : Continuous
        (fun m : ℝ => 0 + m * ((m / 0.1) * (m / 0.1) * (3 - 2 * (m / 0.1))))
        := by continuity
    have h2 := (hcont.tendsto 0.1).mono_left
      (nhdsWithin_le_nhds (s := Set.Ioo 0 0.1))
    have hv : 0 + (0.1 : ℝ) * ((0.1 / 0.1) * (0.1 / 0.1) * (3 - 2 * (0.1 / 0.1)))
        = 0.1 := by norm_num
    rwa [hv] at h2
  have heq : (fun m : ℝ => deadzoneOutputAt 0.1 m)
      =ᶠ[nhdsWithin 0.1 (Set.Ioo 0 0.1)]
      (fun m : ℝ => 0 + m * ((m / 0.1) * (m / 0.1) * (3 - 2 * (m / 0.1)))) := by
    filter_upwards [self_mem_nhdsWithin] with m hm
    exact deadzoneOutputAt_inside m hm.1 hm.2
  have hF : Filter.Tendsto (deadzoneOutputAt 0.1)
      (nhdsWithin 0.1 (Set.Ioo 0 0.1)) (nhds 0.1) := hG.congr' heq.symm
  have hF0 : Filter.Tendsto (deadzoneOutputAt 0.1)
      (nhdsWithin 0.1 (Set.Ioo 0 0.1)) (nhds 0) := by
    have := hc.tendsto.mono_left (nhdsWithin_le_nhds (s := Set.Ioo 0 0.1))
    rwa [hval] at this
  haveI : (nhdsWithin (0.1 : ℝ) (Set.Ioo 0 0.1)).NeBot := by
    rw [nhdsWithin_Ioo_eq_nhdsWithin_Iio (by norm_num)]
    infer_instance
  have : (0 : ℝ) = 0.1 := tendsto_nhds_unique hF0 hF
  norm_num at this

/-- Claim C3 (amended): for a configured dead-zone radius `d` at least
1e-6 (every positive value reachable through the 0.0001-step UI slider),
the stage behaves per branch as the claim describes -- smoothstep easing of
the delta within the zone, a linear blend from previous to new anchor on
`[d, 3d)`, pass-through beyond `3d` -- but the map is NOT continuous in the
displacement at the boundary `d` (see the counterexample): the inside
branch tends to the full new anchor while the band branch restarts at the
previous anchor. -/
theorem deadzone_stage_branches (d px py ax ay : ℝ) (hd : 0 < d)
    (hd6 : 1e-6 ≤ d) :
    (Real.sqrt ((ax - px) * (ax - px) + (ay - py) * (ay - py)) < d →
      jitterDeadzoneStage d px py ax ay =
        (px + (ax - px) *
          ((Real.sqrt ((ax - px) * (ax - px) + (ay - py) * (ay - py)) / d) *
           (Real.sqrt ((ax - px) * (ax - px) + (ay - py) * (ay - py)) / d) *
           (3 - 2 * (Real.sqrt ((ax - px) * (ax - px) + (ay - py) * (ay - py))
             / d))),
         py + (ay - py) *
          ((Real.sqrt ((ax - px) * (ax - px) + (ay - py) * (ay - py)) / d) *
           (Real.sqrt ((ax - px) * (ax - px) + (ay - py) * (ay - py)) / d) *
           (3 - 2 * (Real.sqrt ((ax - px) * (ax - px) + (ay - py) * (ay - py))
             / d))))) ∧
    (d ≤ Real.sqrt ((ax - px) * (ax - px) + (ay - py) * (ay - py)) →
      Real.sqrt ((ax - px) * (ax - px) + (ay - py) * (ay - py)) < d * 3 →
      jitterDeadzoneStage d px py ax ay =
        (lerp px ax
          ((Real.sqrt ((ax - px) * (ax - px) + (ay - py) * (ay - py)) - d) /
            (d * 2)),
         lerp py ay
          ((Real.sqrt ((ax - px) * (ax - px) + (ay - py) * (ay - py)) - d) /
            (d * 2)))) ∧
    (d * 3 ≤ Real.sqrt ((ax - px) * (ax - px) + (ay - py) * (ay - py)) →
      jitterDeadzoneStage d px py ax ay = (ax, ay)) := by
  have hmax : max 0 d = d := max_eq_right hd.le
  have hmax2 : max d 1e-6 = d := max_eq_left hd6
  have hs0 : 0 ≤ Real.sqrt ((ax - px) * (ax - px) + (ay - py) * (ay - py)) :=
    Real.sqrt_nonneg _
  refine ⟨?_, ?_, ?_⟩
  · intro hin
    have hclamp : clamp
        (Real.sqrt ((ax - px) * (ax - px) + (ay - py) * (ay - py)) / d) 0 1 =
        Real.sqrt ((ax - px) * (ax - px) + (ay - py) * (ay - py)) / d := by
      have hle : Real.sqrt ((ax - px) * (ax - px) + (ay - py) * (ay - py)) / d
          ≤ 1 := (div_le_one hd).mpr hin.le
      have hge : 0 ≤
          Real.sqrt ((ax - px) * (ax - px) + (ay - py) * (ay - py)) / d :=
        div_nonneg hs0 hd.le
      simp only [clamp, min_eq_right hle, max_eq_right hge]
    simp only [jitterDeadzoneStage, hmax, hmax2, if_pos hd, if_pos hin,
      hclamp]
  · intro hge hlt
    have hclamp : clamp
        ((Real.sqrt ((ax - px) * (ax - px) + (ay - py) * (ay - py)) - d) /
          (d * 2)) 0 1 =
        (Real.sqrt ((ax - px) * (ax - px) + (ay - py) * (ay - py)) - d) /
          (d * 2) := by
      have hle : (Real.sqrt ((ax - px) * (ax - px) + (ay - py) * (ay - py))
          - d) / (d * 2) ≤ 1 := by
        rw [div_le_one (by linarith)]
        linarith
      have hge2 : 0 ≤ (Real.sqrt ((ax - px) * (ax - px) + (ay - py) * (ay - py))
          - d) / (d * 2) := div_nonneg (by linarith) (by linarith)
      simp only [clamp, min_eq_right hle, max_eq_right hge2]
    simp only [jitterDeadzoneStage, hmax, hmax2, if_pos hd,
      if_neg (not_lt.mpr hge), if_pos hlt, hclamp]
  · intro hbeyond
    have hge : d ≤ Real.sqrt ((ax - px) * (ax - px) + (ay - py) * (ay - py)) :=
      le_trans (show d ≤ d * 3 by linarith) hbeyond
    simp only [jitterDeadzoneStage, hmax, hmax2, if_pos hd,
      if_neg (not_lt.mpr hge), if_neg (not_lt.mpr hbeyond)]

/-- Witness for amended C3 at a concrete in-zone displacement: dead-zone
0.1, previous anchor `(0, 0)`, new anchor `(0.05, 0)`; the smoothstep of
0.5 is 0.5, so the stage moves half the delta. -/
theorem deadzone_stage_branches_witness :
    (0 : ℝ) < 0.1 ∧ (1e-6 : ℝ) ≤ 0.1 ∧
    jitterDeadzoneStage 0.1 0 0 0.05 0 = (0.025, 0) := by
  have hdiff : Real.sqrt (((0.05 : ℝ) - 0) * (0.05 - 0) + (0 - 0) * (0 - 0))
      = 0.05 := by
    have : ((0.05 : ℝ) - 0) * (0.05 - 0) + ((0 : ℝ) - 0) * (0 - 0)
        = (0.05 : ℝ) ^ 2 := by ring
    rw [this, Real.sqrt_sq (by norm_num)]
  have h := (deadzone_stage_branches 0.1 0 0 0.05 0 (by norm_num)
    (by norm_num)).1 (by rw [hdiff]; norm_num)
  rw [h, hdiff]
  norm_num

/-- Claim C7: in the fast intentional-motion branch (previous sample
present, dt above EPSILON, movement magnitude at least the dead zone and
at least the jitter threshold, positive prediction strength, smoothed
velocity magnitude above the 0.001 floor), the output of
`StabilizationFilter.update` is the per-axis one-euro filtering of the
domain-clamped second-order extrapolation `predicted = point +
avgVelocity * predictionTime + 0.5 * acceleration * predictionTime^2`,
with `predictionTime = dt * predictionStrength`, `avgVelocity` the average
over the rolling (up to 5 frames) velocity history including the current
instantaneous velocity, and `acceleration` the discrete derivative of the
smoothed velocity; x and y are clamped to [0,1] and z to [-1,1] before
filtering. -/
theorem stabilization_prediction_branch (s : StabilizationFilter)
    (point : Vec3) (t : ℝ) (p : Vec3) (hprev : s.prev = some p)
    (hdt : EPSILON < t - s.lastTimestamp)
    (hdz : ¬ (mag3 (sub3 point p) < s.deadZone))
    (hjt : ¬ (mag3 (sub3 point p) < s.jitterThreshold))
    (hps : 0 < s.predictionStrength)
    (hvm : 0.001 < mag3
      ⟨lerp s.velocity.x ((sub3 point p).x / (t - s.lastTimestamp))
          s.velocitySmoothing,
       lerp s.velocity.y ((sub3 point p).y / (t - s.lastTimestamp))
          s.velocitySmoothing,
       lerp s.velocity.z ((sub3 point p).z / (t - s.lastTimestamp))
          s.velocitySmoothing⟩) :
    (s.update point t).1 =
      (let dt := t - s.lastTimestamp
       let cv : Vec3 := ⟨(sub3 point p).x / dt, (sub3 point p).y / dt,
         (sub3 point p).z / dt⟩
       let avgVelocity := avgOfHistory (rollHistory s.velocityHistory cv)
       let acceleration : Vec3 := ⟨(cv.x - s.velocity.x) / dt,
         (cv.y - s.velocity.y) / dt, (cv.z - s.velocity.z) / dt⟩
       let predictionTime := dt * s.predictionStrength
       let predicted : Vec3 :=
         ⟨point.x + avgVelocity.x * predictionTime
            + 0.5 * acceleration.x * predictionTime * predictionTime,
          point.y + avgVelocity.y * predictionTime
            + 0.5 * acceleration.y * predictionTime * predictionTime,
          point.z + avgVelocity.z * predictionTime
            + 0.5 * acceleration.z * predictionTime * predictionTime⟩
       Vec3.mk
         (s.oneEuroX.update (clamp predicted.x 0 1) t).1
         (s.oneEuroY.update (clamp predicted.y 0 1) t).1
         (s.oneEuroZ.update (clamp predicted.z (-1) 1) t).1) := by
  simp only [StabilizationFilter.update, hprev, StabilizationFilter.euroStep,
    avgOfHistory, rollHistory]
  rw [if_neg (not_le.mpr hdt), if_neg hdz, if_neg hjt, if_pos ⟨hps, hvm⟩]

/-- Witness for C7: the probe state at input `(0.9, 0.5, 0.3)`, timestamp
1, satisfies every branch hypothesis (movement magnitude 1, smoothed
velocity magnitude 0.15) and the update returns the one-euro-filtered
clamped prediction, which on this first filter sample is
`(1, 0.5, 0.629)` (the x-prediction 1.14675 clamps to 1). -/
theorem stabilization_prediction_branch_witness :
    EPSILON < (1 : ℝ) - predictionProbeFilter.lastTimestamp ∧
    ¬ (mag3 (sub3 ⟨0.9, 0.5, 0.3⟩ ⟨0.3, 0.5, -0.5⟩)
        < predictionProbeFilter.deadZone) ∧
    ¬ (mag3 (sub3 ⟨0.9, 0.5, 0.3⟩ ⟨0.3, 0.5, -0.5⟩)
        < predictionProbeFilter.jitterThreshold) ∧
    0 < predictionProbeFilter.predictionStrength ∧
    (predictionProbeFilter.update ⟨0.9, 0.5, 0.3⟩ 1).1 = ⟨1, 0.5, 0.629⟩ := by
  have hmag : mag3 (sub3 ⟨0.9, 0.5, 0.3⟩ ⟨0.3, 0.5, -0.5⟩) = 1 := by
    simp only [mag3, sub3]
    rw [show ((0.9 : ℝ) - 0.3) * (0.9 - 0.3) + (0.5 - 0.5) * (0.5 - 0.5)
      + (0.3 - -0.5) * (0.3 - -0.5) = 1 by norm_num]
    exact Real.sqrt_one
  have hvm : (0.001 : ℝ) < mag3
      ⟨lerp predictionProbeFilter.velocity.x
          ((sub3 ⟨0.9, 0.5, 0.3⟩ ⟨0.3, 0.5, -0.5⟩).x
            / ((1 : ℝ) - predictionProbeFilter.lastTimestamp))
          predictionProbeFilter.velocitySmoothing,
       lerp predictionProbeFilter.velocity.y
          ((sub3 ⟨0.9, 0.5, 0.3⟩ ⟨0.3, 0.5, -0.5⟩).y
            / ((1 : ℝ) - predictionProbeFilter.lastTimestamp))
          predictionProbeFilter.velocitySmoothing,
       lerp predictionProbeFilter.velocity.z
          ((sub3 ⟨0.9, 0.5, 0.3⟩ ⟨0.3, 0.5, -0.5⟩).z
            / ((1 : ℝ) - predictionProbeFilter.lastTimestamp))
          predictionProbeFilter.velocitySmoothing⟩ := by
    simp only [mag3, sub3, lerp, predictionProbeFilter]
    rw [show (0 : ℝ) + ((0.9 - 0.3) / (1 - 0) - 0) * 0.15 = 0.09 by norm_num,
      show (0 : ℝ) + ((0.5 - 0.5) / (1 - 0) - 0) * 0.15 = 0 by norm_num,
      show (0 : ℝ) + ((0.3 - -0.5) / (1 - 0) - 0) * 0.15 = 0.12 by norm_num,
      show (0.09 : ℝ) * 0.09 + 0 * 0 + 0.12 * 0.12 = 0.15 ^ 2 by norm_num,
      Real.sqrt_sq (by norm_num : (0.15 : ℝ) ≥ 0)]
    norm_num
  have hdt : EPSILON < (1 : ℝ) - predictionProbeFilter.lastTimestamp := by
    simp only [EPSILON, predictionProbeFilter]
    norm_num
  have hdz : ¬ (mag3 (sub3 ⟨0.9, 0.5, 0.3⟩ ⟨0.3, 0.5, -0.5⟩)
      < predictionProbeFilter.deadZone) := by
    rw [hmag]
    simp only [predictionProbeFilter]
    norm_num
  have hjt : ¬ (mag3 (sub3 ⟨0.9, 0.5, 0.3⟩ ⟨0.3, 0.5, -0.5⟩)
      < predictionProbeFilter.jitterThreshold) := by
    rw [hmag]
    simp only [predictionProbeFilter]
    norm_num
  have hps : (0 : ℝ) < predictionProbeFilter.predictionStrength := by
    simp only [predictionProbeFilter]
    norm_num
  have h := stabilization_prediction_branch predictionProbeFilter
    ⟨0.9, 0.5, 0.3⟩ 1 ⟨0.3, 0.5, -0.5⟩ rfl hdt hdz hjt hps hvm
  refine ⟨hdt, hdz, hjt, hps, ?_⟩
  rw [h]
  simp only [predictionProbeFilter, avgOfHistory, rollHistory, sub3,
    OneEuroFilter.update, OneEuroFilter.init, clamp,
    StabilizationFilter.VELOCITY_HISTORY_SIZE, List.nil_append,
    List.length_cons, List.length_nil, List.foldl_cons, List.foldl_nil]
  norm_num

/-- Helper: the low-pass alpha is a proper convex weight whenever `dt` and
the cutoff are positive. -/
theorem alphaOf_mem (dt cutoff : ℝ) (hdt : 0 < dt) (hc : 0 < cutoff) :
    0 < OneEuroFilter.alphaOf dt cutoff ∧
      OneEuroFilter.alphaOf dt cutoff < 1 := by
  unfold OneEuroFilter.alphaOf
  have hpi := Real.pi_pos
  have hq : 0 < 1 / (2 * Real.pi * cutoff) / dt := by positivity
  constructor
  · positivity
  · rw [div_lt_one (by linarith)]
    linarith

/-- Helper: exponential smoothing with a convex weight stays inside any
interval containing both its inputs. -/
theorem exponentialSmoothing_mem (v x0 a lo hi : ℝ) (ha0 : 0 < a)
    (ha1 : a < 1) (hv1 : lo ≤ v) (hv2 : v ≤ hi) (hx1 : lo ≤ x0)
    (hx2 : x0 ≤ hi) :
    lo ≤ OneEuroFilter.exponentialSmoothing v x0 a ∧
      OneEuroFilter.exponentialSmoothing v x0 a ≤ hi := by
  unfold OneEuroFilter.exponentialSmoothing
  constructor <;> nlinarith

/-- Helper: `OneEuroFilter.update` keeps the tuning parameters. -/
theorem euro_update_params (f : OneEuroFilter) (v t : ℝ) :
    ((f.update v t).2).minCutoff = f.minCutoff ∧
    ((f.update v t).2).beta = f.beta ∧
    ((f.update v t).2).dCutoff = f.dCutoff := by
  cases hfx : f.x with
  | none =>
    simp only [OneEuroFilter.update, hfx]
    exact ⟨trivial, trivial, trivial⟩
  | some x0 =>
    simp only [OneEuroFilter.update, hfx]
    by_cases hdt : t - f.lastTime ≤ 0
    · rw [if_pos hdt]
      exact ⟨rfl, rfl, rfl⟩
    · rw [if_neg hdt]
      exact ⟨rfl, rfl, rfl⟩

/-- Helper: with positive cutoffs, a one-euro update of an in-range value
from an in-range stored state returns an in-range output and keeps the
stored state in range (the output is the first sample, the stored value,
or a strict convex combination). -/
theorem euro_update_range (f : OneEuroFilter) (v t lo hi : ℝ)
    (hmc : 0 < f.minCutoff) (hb : 0 ≤ f.beta)
    (hv : lo ≤ v ∧ v ≤ hi)
    (hx : ∀ a, f.x = some a → lo ≤ a ∧ a ≤ hi) :
    (lo ≤ (f.update v t).1 ∧ (f.update v t).1 ≤ hi) ∧
    (∀ a, ((f.update v t).2).x = some a → lo ≤ a ∧ a ≤ hi) := by
  cases hfx : f.x with
  | none =>
    simp only [OneEuroFilter.update, hfx]
    refine ⟨hv, fun a ha => ?_⟩
    simp only [Option.some.injEq] at ha
    exact ha ▸ hv
  | some x0 =>
    have hx0 := hx x0 hfx
    simp only [OneEuroFilter.update, hfx]
    by_cases hdt : t - f.lastTime ≤ 0
    · rw [if_pos hdt]
      refine ⟨hx0, fun a ha => ?_⟩
      rw [hfx, Option.some.injEq] at ha
      exact ha ▸ hx0
    · rw [if_neg hdt]
      push_neg at hdt
      have hcut : 0 < f.minCutoff + f.beta *
          |OneEuroFilter.exponentialSmoothing ((v - x0) / (t - f.lastTime))
            f.dx (OneEuroFilter.alphaOf (t - f.lastTime) f.dCutoff)| := by
        have := mul_nonneg hb (abs_nonneg
          (OneEuroFilter.exponentialSmoothing ((v - x0) / (t - f.lastTime))
            f.dx (OneEuroFilter.alphaOf (t - f.lastTime) f.dCutoff)))
        linarith
      have ha := alphaOf_mem (t - f.lastTime) _ hdt hcut
      have hmem := exponentialSmoothing_mem v x0 _ lo hi ha.1 ha.2
        hv.1 hv.2 hx0.1 hx0.2
      refine ⟨hmem, fun a hamem => ?_⟩
      simp only [Option.some.injEq] at hamem
      exact hamem ▸ hmem

/-- Helper: `euroStep` maps an in-domain point to an in-domain output and
preserves the per-axis stored-range invariant and the cutoff
configuration. -/
theorem euroStep_range (s : StabilizationFilter) (q : Vec3) (t : ℝ)
    (hcX : euroCutoffsOK s.oneEuroX) (hcY : euroCutoffsOK s.oneEuroY)
    (hcZ : euroCutoffsOK s.oneEuroZ)
    (hX : ∀ a, s.oneEuroX.x = some a → 0 ≤ a ∧ a ≤ 1)
    (hY : ∀ a, s.oneEuroY.x = some a → 0 ≤ a ∧ a ≤ 1)
    (hZ : ∀ a, s.oneEuroZ.x = some a → -1 ≤ a ∧ a ≤ 1)
    (hq : inDomain q) :
    inDomain (StabilizationFilter.euroStep s q t).1 ∧
    (∀ a, (StabilizationFilter.euroStep s q t).2.1.x = some a →
      0 ≤ a ∧ a ≤ 1) ∧
    (∀ a, (StabilizationFilter.euroStep s q t).2.2.1.x = some a →
      0 ≤ a ∧ a ≤ 1) ∧
    (∀ a, (StabilizationFilter.euroStep s q t).2.2.2.x = some a →
      -1 ≤ a ∧ a ≤ 1) ∧
    euroCutoffsOK (StabilizationFilter.euroStep s q t).2.1 ∧
    euroCutoffsOK (StabilizationFilter.euroStep s q t).2.2.1 ∧
    euroCutoffsOK (StabilizationFilter.euroStep s q t).2.2.2 := by
  obtain ⟨hqx, hqy, hqz⟩ := hq
  have eX := euro_update_range s.oneEuroX q.x t 0 1 hcX.1 hcX.2.1 hqx hX
  have eY := euro_update_range s.oneEuroY q.y t 0 1 hcY.1 hcY.2.1 hqy hY
  have eZ := euro_update_range s.oneEuroZ q.z t (-1) 1 hcZ.1 hcZ.2.1 hqz hZ
  have pX := euro_update_params s.oneEuroX q.x t
  have pY := euro_update_params s.oneEuroY q.y t
  have pZ := euro_update_params s.oneEuroZ q.z t
  simp only [StabilizationFilter.euroStep]
  exact ⟨⟨eX.1, eY.1, eZ.1⟩, eX.2, eY.2, eZ.2,
    ⟨pX.1 ▸ hcX.1, pX.2.1 ▸ hcX.2.1, pX.2.2 ▸ hcX.2.2⟩,
    ⟨pY.1 ▸ hcY.1, pY.2.1 ▸ hcY.2.1, pY.2.2 ▸ hcY.2.2⟩,
    ⟨pZ.1 ▸ hcZ.1, pZ.2.1 ▸ hcZ.2.1, pZ.2.2 ▸ hcZ.2.2⟩⟩

/-- Helper: the shape of every post-dead-zone branch of
`StabilizationFilter.update`: filter an (in-domain) point through the
three one-euro filters and store the result as `prev`; the invariant and
configuration carry over. -/
theorem stab_store_branch (s1 : StabilizationFilter) (cl : Vec3) (t : ℝ)
    (hcX : euroCutoffsOK s1.oneEuroX) (hcY : euroCutoffsOK s1.oneEuroY)
    (hcZ : euroCutoffsOK s1.oneEuroZ)
    (hX : ∀ a, s1.oneEuroX.x = some a → 0 ≤ a ∧ a ≤ 1)
    (hY : ∀ a, s1.oneEuroY.x = some a → 0 ≤ a ∧ a ≤ 1)
    (hZ : ∀ a, s1.oneEuroZ.x = some a → -1 ≤ a ∧ a ≤ 1)
    (hcl : inDomain cl) :
    inDomain (StabilizationFilter.euroStep s1 cl t).1 ∧
    stabDomainInv { s1 with
      prev := some (StabilizationFilter.euroStep s1 cl t).1
      lastTimestamp := t
      oneEuroX := (StabilizationFilter.euroStep s1 cl t).2.1
      oneEuroY := (StabilizationFilter.euroStep s1 cl t).2.2.1
      oneEuroZ := (StabilizationFilter.euroStep s1 cl t).2.2.2 } ∧
    stabCutoffsOK { s1 with
      prev := some (StabilizationFilter.euroStep s1 cl t).1
      lastTimestamp := t
      oneEuroX := (StabilizationFilter.euroStep s1 cl t).2.1
      oneEuroY := (StabilizationFilter.euroStep s1 cl t).2.2.1
      oneEuroZ := (StabilizationFilter.euroStep s1 cl t).2.2.2 } := by
  have he := euroStep_range s1 cl t hcX hcY hcZ hX hY hZ hcl
  refine ⟨he.1, ⟨fun q hq => ?_, he.2.1, he.2.2.1, he.2.2.2.1⟩,
    he.2.2.2.2.1, he.2.2.2.2.2.1, he.2.2.2.2.2.2⟩
  injection hq with hq2
  exact hq2 ▸ he.1

/-- Helper: one `StabilizationFilter.update` step preserves the domain
invariant and the cutoff configuration and returns an in-domain output,
provided the input point is in-domain. -/
theorem stab_update_preserves (s : StabilizationFilter) (point : Vec3)
    (t : ℝ) (hcfg : stabCutoffsOK s) (hinv : stabDomainInv s)
    (hpt : inDomain point) :
    inDomain (s.update point t).1 ∧ stabDomainInv (s.update point t).2 ∧
    stabCutoffsOK (s.update point t).2 := by
  obtain ⟨hcX, hcY, hcZ⟩ := hcfg
  obtain ⟨hprev, hX, hY, hZ⟩ := hinv
  cases hp : s.prev with
  | none =>
    simp only [StabilizationFilter.update, hp]
    refine ⟨hpt, ⟨fun q hq => ?_, hX, hY, hZ⟩, hcX, hcY, hcZ⟩
    injection hq with hq2
    exact hq2 ▸ hpt
  | some p0 =>
    have hp0 : inDomain p0 := hprev p0 hp
    simp only [StabilizationFilter.update, hp]
    by_cases hdt : t - s.lastTimestamp ≤ EPSILON
    · rw [if_pos hdt]
      exact ⟨hp0, ⟨hprev, hX, hY, hZ⟩, hcX, hcY, hcZ⟩
    · rw [if_neg hdt]
      by_cases hdz : mag3 (sub3 point p0) < s.deadZone
      · rw [if_pos hdz]
        have he := euroStep_range s point t hcX hcY hcZ hX hY hZ hpt
        refine ⟨he.1, ⟨fun q hq => ?_, he.2.1, he.2.2.1, he.2.2.2.1⟩,
          he.2.2.2.2.1, he.2.2.2.2.2.1, he.2.2.2.2.2.2⟩
        have hq2 : some p0 = some q := hq
        injection hq2 with hq3
        exact hq3 ▸ hp0
      · rw [if_neg hdz]
        by_cases hjt : mag3 (sub3 point p0) < s.jitterThreshold
        · rw [if_pos hjt]
          exact stab_store_branch _ point t hcX hcY hcZ hX hY hZ hpt
        · rw [if_neg hjt]
          by_cases hpsv : 0 < s.predictionStrength ∧ 0.001 < mag3
              ⟨lerp s.velocity.x ((sub3 point p0).x / (t - s.lastTimestamp))
                  s.velocitySmoothing,
               lerp s.velocity.y ((sub3 point p0).y / (t - s.lastTimestamp))
                  s.velocitySmoothing,
               lerp s.velocity.z ((sub3 point p0).z / (t - s.lastTimestamp))
                  s.velocitySmoothing⟩
          · rw [if_pos hpsv]
            exact stab_store_branch _ _ t hcX hcY hcZ hX hY hZ
              ⟨clamp_mem_Icc _ 0 1 (by norm_num),
               clamp_mem_Icc _ 0 1 (by norm_num),
               clamp_mem_Icc _ (-1) 1 (by norm_num)⟩
          · rw [if_neg hpsv]
            exact stab_store_branch _ point t hcX hcY hcZ hX hY hZ hpt

/-- Claim C10: if every point fed to `StabilizationFilter.update` lies in
the valid landmark domain (x, y in [0,1], z in [-1,1]) and the configured
one-euro cutoffs are positive (minCutoff, dCutoff positive and beta
nonnegative, so every adaptive cutoff is positive), then starting from any
state satisfying the domain invariant -- in particular a freshly
constructed filter -- every returned point lies in the valid domain: each
branch returns the first sample, the stored previous output, or a one-euro
convex smoothing of an in-range value (the prediction branch clamps before
filtering). -/
theorem stabilization_domain_preservation (s : StabilizationFilter)
    (inputs : List (Vec3 × ℝ)) (hcfg : stabCutoffsOK s)
    (hinv : stabDomainInv s) (hin : ∀ pt ∈ inputs, inDomain pt.1) :
    ∀ out ∈ runOutputs s inputs, inDomain out := by
  induction inputs generalizing s with
  | nil =>
    intro out hout
    simp [runOutputs] at hout
  | cons a rest ih =>
    obtain ⟨p, t⟩ := a
    have hstep := stab_update_preserves s p t hcfg hinv
      (hin (p, t) (List.mem_cons_self _ _))
    intro out hout
    simp only [runOutputs, List.mem_cons] at hout
    rcases hout with rfl | hout
    · exact hstep.1
    · exact ih ((s.update p t).2) hstep.2.2 hstep.2.1
        (fun q hq => hin q (List.mem_cons_of_mem _ hq)) out hout

/-- Witness for C10: the balanced-preset fresh filter on two concrete
in-domain samples produces only in-domain outputs. -/
theorem stabilization_domain_preservation_witness :
    stabCutoffsOK (StabilizationFilter.init 0.0003 0.15 0.0015 0.35 3 0.02 2) ∧
    stabDomainInv (StabilizationFilter.init 0.0003 0.15 0.0015 0.35 3 0.02 2) ∧
    (∀ pt ∈ [((⟨0.5, 0.5, 0⟩ : Vec3), (1 : ℝ)), (⟨0.6, 0.5, 0.1⟩, 2)],
      inDomain pt.1) ∧
    ∀ out ∈ runOutputs (StabilizationFilter.init 0.0003 0.15 0.0015 0.35 3 0.02 2)
      [((⟨0.5, 0.5, 0⟩ : Vec3), (1 : ℝ)), (⟨0.6, 0.5, 0.1⟩, 2)],
      inDomain out := by
  have hcfg : stabCutoffsOK
      (StabilizationFilter.init 0.0003 0.15 0.0015 0.35 3 0.02 2) := by
    refine ⟨⟨?_, ?_, ?_⟩, ⟨?_, ?_, ?_⟩, ⟨?_, ?_, ?_⟩⟩ <;>
      norm_num [StabilizationFilter.init, OneEuroFilter.init]
  have hinv : stabDomainInv
      (StabilizationFilter.init 0.0003 0.15 0.0015 0.35 3 0.02 2) := by
    refine ⟨fun p hp => ?_, fun a ha => ?_, fun a ha => ?_, fun a ha => ?_⟩
    · simp [StabilizationFilter.init] at hp
    · simp [StabilizationFilter.init, OneEuroFilter.init] at ha
    · simp [StabilizationFilter.init, OneEuroFilter.init] at ha
    · simp [StabilizationFilter.init, OneEuroFilter.init] at ha
  have hin : ∀ pt ∈ [((⟨0.5, 0.5, 0⟩ : Vec3), (1 : ℝ)), (⟨0.6, 0.5, 0.1⟩, 2)],
      inDomain pt.1 := by
    intro pt hpt
    simp only [List.mem_cons, List.not_mem_nil, or_false] at hpt
    rcases hpt with rfl | rfl <;>
      exact ⟨⟨by norm_num, by norm_num⟩, ⟨by norm_num, by norm_num⟩,
        ⟨by norm_num, by norm_num⟩⟩
  exact ⟨hcfg, hinv, hin, stabilization_domain_preservation _ _ hcfg hinv hin⟩

end Theorems
